import Mathlib

/-!
Shallow embedding of `src/main.ts` (fp-ts monad example page script).

JS strings are modelled as `List Char`, JS numbers as `Int` (the script only
ever handles integral values; float precision is outside the model), the
browser cookie jar as an association list of name/value pairs, and the DOM /
alert / object-URL environment as an explicit `PageState` record.  `IO.IO`
actions of the script become state transformers on `PageState`; the
`TaskEither` pipeline of `fetchImage` becomes an `Except`-valued function of
the (already settled) network outcome.
-/

namespace DogSite

/-- Characters of a JS string. -/
abbrev JSString := List Char

/- ## JS string and number primitives used by main.ts -/

/-- Digit test of JS `parseInt` with radix 10: a character in '0'..'9'. -/
def isDigitCh (c : Char) : Bool := 48 ≤ c.toNat && c.toNat ≤ 57

/-- White-space test used by JS `parseInt` before the number: space, tab,
line terminators, form/vertical feed, NBSP, BOM (the Unicode space class is
approximated by its common members; none of them is a digit or a sign). -/
def isJsSpace (c : Char) : Bool :=
  c.toNat = 32 || c.toNat = 9 || c.toNat = 10 || c.toNat = 11 ||
  c.toNat = 12 || c.toNat = 13 || c.toNat = 160 || c.toNat = 65279

/-- Value of a digit character. -/
def digitVal (c : Char) : Nat := c.toNat - 48

/-- Decimal value of a list of digit characters, most significant first. -/
def digitsVal (ds : List Char) : Nat :=
  ds.foldl (fun a c => a * 10 + digitVal c) 0

/-- Digit character for a value below 10. -/
def digitChar : Nat → Char
  | 0 => '0' | 1 => '1' | 2 => '2' | 3 => '3' | 4 => '4'
  | 5 => '5' | 6 => '6' | 7 => '7' | 8 => '8' | _ => '9'

/-- Fuel-driven core of decimal rendering of a natural number (the fuel is
only there to make the recursion structural; any fuel above the value
itself is enough). -/
def natReprGo : Nat → Nat → List Char → List Char
  | 0, _, acc => acc
  | fuel + 1, n, acc =>
    if n < 10 then digitChar n :: acc
    else natReprGo fuel (n / 10) (digitChar (n % 10) :: acc)

/-- Decimal rendering of a natural number, as JS `String(n)` produces it. -/
def natRepr (n : Nat) : JSString := natReprGo (n + 1) n []

/-- Rendering of a JS number (integral case): `String(n)` / template
interpolation, with a leading minus sign for negative values. -/
def intRepr (n : Int) : JSString :=
  if n < 0 then '-' :: natRepr n.natAbs else natRepr n.natAbs

/-- Longest digit run at the front, as a number; `none` when there is no
digit at all (JS `NaN`). -/
def parseDigits (s : JSString) : Option Nat :=
  let ds := s.takeWhile isDigitCh
  if ds.isEmpty then none else some (digitsVal ds)

/-- Model of JS `parseInt(s, 10)`: skip white space, read an optional sign,
then the longest digit run; `none` stands for `NaN`. -/
def jsParseInt (s : JSString) : Option Int :=
  match s.dropWhile isJsSpace with
  | [] => none
  | c :: rest =>
    if c = '-' then (parseDigits rest).map (fun m => -(Int.ofNat m))
    else if c = '+' then (parseDigits rest).map (fun m => Int.ofNat m)
    else (parseDigits (c :: rest)).map (fun m => Int.ofNat m)

/-- Core of JS `s.split('; ')` (the separator used on `document.cookie`):
scan the characters, cutting at every occurrence of the two-character
separator. -/
def splitSemiSpGo : List Char → List Char → List (List Char)
  | [], acc => [acc.reverse]
  | ';' :: ' ' :: rest, acc => acc.reverse :: splitSemiSpGo rest []
  | c :: rest, acc => splitSemiSpGo rest (c :: acc)

/-- Model of JS `s.split('; ')`. -/
def splitSemiSp (s : JSString) : List JSString := splitSemiSpGo s []

/-- Core of JS `s.split('=')`: scan the characters, cutting at every
equals sign. -/
def splitEqGo : List Char → List Char → List (List Char)
  | [], acc => [acc.reverse]
  | c :: rest, acc =>
    if c = '=' then acc.reverse :: splitEqGo rest []
    else splitEqGo rest (c :: acc)

/-- Model of JS `s.split('=')`. -/
def splitEq (s : JSString) : List JSString := splitEqGo s []

/-- Model of JS `s.startsWith(pat)`. -/
def startsWithChars : JSString → JSString → Bool
  | [], _ => true
  | _ :: _, [] => false
  | p :: ps, c :: cs => p = c && startsWithChars ps cs

/-- Substring test (used only to state claims about alert messages). -/
def containsSub (pat : JSString) : JSString → Bool
  | [] => startsWithChars pat []
  | c :: rest => startsWithChars pat (c :: rest) || containsSub pat rest

/- ## Browser environment: cookie jar, DOM, alerts, object URLs -/

/-- Opaque binary payload (JS `Blob`). -/
structure Blob where
  bytes : List Nat
deriving DecidableEq

/-- JS `Error` value: only its message matters to the script. -/
structure JsError where
  message : JSString
deriving DecidableEq

/-- Model of an HTTP `Response` as far as the script inspects it: the
status, the status text, and the (already settled) outcome of reading its
body with `blob()` — `Except.error` when that read would reject. -/
structure Response where
  status : Nat
  statusText : JSString
  blobResult : Except JsError Blob

/-- Property `response.ok` of the Fetch API: status in the range 200..299. -/
def respOk (r : Response) : Bool := 200 ≤ r.status && r.status ≤ 299

/-- Rendering of one cookie jar entry as it appears in `document.cookie`. -/
def renderPair (p : JSString × JSString) : JSString := p.1 ++ '=' :: p.2

/-- Join of a list of items with the `'; '` separator, as the browser
renders `document.cookie`. -/
def joinItems : List JSString → JSString
  | [] => []
  | [x] => x
  | x :: y :: rest => x ++ ';' :: ' ' :: joinItems (y :: rest)

/-- Browser cookie jar: name/value pairs in rendering order. -/
abbrev CookieJar := List (JSString × JSString)

/-- Reading `document.cookie` from the jar. -/
def renderJar (jar : CookieJar) : JSString := joinItems (jar.map renderPair)

/-- Browser semantics of assigning `name=value` to `document.cookie`: the
first entry with that name is overwritten in place, a missing name is
appended. -/
def setCookieField : CookieJar → JSString → JSString → CookieJar
  | [], k, v => [(k, v)]
  | p :: rest, k, v =>
    if p.1 = k then (k, v) :: rest else p :: setCookieField rest k v

/-- Value of a named field of the jar (to state what a write achieved). -/
def lookupField : CookieJar → JSString → Option JSString
  | [], _ => none
  | p :: rest, k => if p.1 = k then some p.2 else lookupField rest k

/-- Whole observable page state: cookie jar, counter element text, image
element source, alert log (oldest first), and the object-URL generator
(counter plus the URLs handed out so far, newest first). -/
structure PageState where
  jar : CookieJar
  counterText : Option JSString
  imageSrc : Option JSString
  alerts : List JSString
  urlCounter : Nat
  objectUrls : List (JSString × Blob)

/-- State-transformer model of the script's `IO.IO a` actions. -/
def Eff (α : Type) := PageState → α × PageState

/-- Model of fp-ts `IO.chain f m`: run `m`, feed its value to `f`. -/
def effChain {α β : Type} (f : α → Eff β) (m : Eff α) : Eff β :=
  fun st => let p := m st; f p.1 p.2

/- ## The script's logic (main.ts, lines 25-147) -/

/-- Cookie item name literal `'visits='` of main.ts line 29. -/
def visitsMark : JSString := "visits=".toList

/-- Cookie field name `visits`. -/
def visitsKey : JSString := "visits".toList

/-- Lines 25-31: `document.cookie.split('; ').find(c =>
c.startsWith('visits='))`, wrapped by `Option.fromNullable`; the document
cookie string is the explicit argument. -/
def getCookie (doc : JSString) : Option JSString :=
  (splitSemiSp doc).find? (fun cookie => startsWithChars visitsMark cookie)

/-- Numeric part of lines 36-38: `parseInt(cookie.split('=')[1], 10)`,
where `none` stands for `NaN` (also produced when index 1 is out of
bounds, i.e. `parseInt(undefined, 10)`). -/
def cookieParseInt (cookie : JSString) : Option Int :=
  match (splitEq cookie)[1]? with
  | none => none
  | some part => jsParseInt part

/-- Lines 36-38: `parseInt(cookie.split('=')[1], 10) || 0` — the `|| 0`
turns the falsy results `NaN` and `0` into `0` and keeps everything else. -/
def extractNumberFromCookie (cookie : JSString) : Int :=
  match cookieParseInt cookie with
  | none => 0
  | some v => if v = 0 then 0 else v

/-- Lines 41-51: fold the optional cookie to a number — `0` when absent,
`extractNumberFromCookie` when present. -/
def getSavedVisitCount (maybeCookie : Option JSString) : Int :=
  match maybeCookie with
  | none => 0
  | some cookie => extractNumberFromCookie cookie

/-- Composition `getCookie` then `getSavedVisitCount` — the read half of
the counter logic (the spec's `readCounter()`). -/
def readCounter (doc : JSString) : Int := getSavedVisitCount (getCookie doc)

/-- Lines 54-66: `response.ok ? Either.right(response) :
Either.left(Error(response.statusText))`. -/
def validateStatus (r : Response) : Except JsError Response :=
  if respOk r then Except.ok r else Except.error ⟨r.statusText⟩

/-- Lines 71-79: `TaskEither.tryCatch(() => response.blob(), toError)` —
the settled outcome of the body read, failures already as `Error`s. -/
def extractBlob (r : Response) : Except JsError Blob := r.blobResult

/-- Lines 92-112: the fetch pipeline. The argument is the settled outcome
of `tryCatch(() => fetch(...), toError)`: `Except.error` when the request
itself failed at network level. The chain then validates the status and
extracts the blob; the result models the `Either` inside the promise that
`fetchImage` returns (the promise itself always resolves). -/
def fetchImage (fetched : Except JsError Response) : Except JsError Blob :=
  (fetched.bind validateStatus).bind extractBlob

/-- URL given out by the k-th call of `URL.createObjectURL` in a page. -/
def objectUrlString (k : Nat) : JSString := "blob:".toList ++ natRepr k

/-- Model of `URL.createObjectURL(blob)`: a fresh URL, recorded together
with the blob it denotes. -/
def createObjectURL (b : Blob) (st : PageState) : JSString × PageState :=
  let url := objectUrlString st.urlCounter
  (url, { st with urlCounter := st.urlCounter + 1,
                  objectUrls := (url, b) :: st.objectUrls })

/-- Lines 116-119: `swapImage` — create an object URL for the blob and
assign it to `imageElement.src`. -/
def swapImage (newImage : Blob) (st : PageState) : PageState :=
  let p := createObjectURL newImage st
  { p.2 with imageSrc := some p.1 }

/-- String conversion of a JS `Error` (its `name` is `'Error'`). -/
def jsErrorToString (e : JsError) : JSString := "Error: ".toList ++ e.message

/-- Alert text of line 129: `` `Doggo not found: ${error}` ``. -/
def alertText (e : JsError) : JSString :=
  "Doggo not found: ".toList ++ jsErrorToString e

/-- Lines 121-134: the click handler — fold the `Either` from `fetchImage`
into an alert on the left and `swapImage` on the right. -/
def onFetchButtonClick (fetched : Except JsError Response) (st : PageState) :
    PageState :=
  match fetchImage fetched with
  | Except.error e => { st with alerts := st.alerts ++ [alertText e] }
  | Except.ok b => swapImage b st

/-- Lines 85-90: `saveVisitCount` — the IO action that assigns
`` `visits=${visitCount}` `` to `document.cookie` and returns the count. -/
def saveVisitCount (visitCount : Int) : Eff Int :=
  fun st =>
    (visitCount,
     { st with jar := setCookieField st.jar visitsKey (intRepr visitCount) })

/-- Lines 136-141: `setCounterText` — the IO action that writes the decimal
string of the number into the counter element and returns the number. -/
def setCounterText (number : Int) : Eff Int :=
  fun st => (number, { st with counterText := some (intRepr number) })

/-- Lines 145-147. -/
def incrementVisits (savedVisits : Int) : Int := savedVisits + 1

/-- Lines 154-158: `flow(getCookie, getSavedVisitCount, incrementVisits)`,
with the document cookie string as the point where `getCookie` reads. -/
def updateCounter (doc : JSString) : Int :=
  incrementVisits (getSavedVisitCount (getCookie doc))

/-- Lines 161-164: `flow(setCounterText, IO.chain(saveVisitCount))`. -/
def setCounterAndSave (n : Int) : Eff Int :=
  effChain saveVisitCount (setCounterText n)

/-- Lines 151-168: the load-time body of `main` (the click listener wiring
of line 170 is modelled separately by `onFetchButtonClick`). -/
def mainOnLoad (st : PageState) : PageState :=
  let updatedCounterState := updateCounter (renderJar st.jar)
  (setCounterAndSave updatedCounterState st).2

/- ## Well-formedness of cookie jars -/

/-- Pair whose rendering cannot confuse the cookie parsing: no separator
character in name or value and no equals sign in the name. -/
abbrev goodPair (p : JSString × JSString) : Prop :=
  ';' ∉ p.1 ∧ ';' ∉ p.2 ∧ '=' ∉ p.1

/-- Jar all of whose entries are well formed. -/
abbrev goodJar (jar : CookieJar) : Prop := ∀ p ∈ jar, goodPair p

/- ## Digit and decimal-rendering lemmas -/

lemma digitVal_digitChar (d : Nat) (h : d < 10) : digitVal (digitChar d) = d := by
  interval_cases d <;> decide

lemma isDigitCh_digitChar (d : Nat) (h : d < 10) : isDigitCh (digitChar d) = true := by
  interval_cases d <;> decide

lemma isDigitCh_not_space {c : Char} (h : isDigitCh c = true) : isJsSpace c = false := by
  simp only [isDigitCh, Bool.and_eq_true, decide_eq_true_eq] at h
  simp only [isJsSpace, Bool.or_eq_false_iff, decide_eq_false_iff_not]
  omega

lemma isDigitCh_ne_minus {c : Char} (h : isDigitCh c = true) : c ≠ '-' := by
  rintro rfl; exact absurd h (by decide)

lemma isDigitCh_ne_plus {c : Char} (h : isDigitCh c = true) : c ≠ '+' := by
  rintro rfl; exact absurd h (by decide)

lemma isDigitCh_ne_semi {c : Char} (h : isDigitCh c = true) : c ≠ ';' := by
  rintro rfl; exact absurd h (by decide)

lemma isDigitCh_ne_eqmark {c : Char} (h : isDigitCh c = true) : c ≠ '=' := by
  rintro rfl; exact absurd h (by decide)

lemma natReprGo_eq : ∀ (n fuel : Nat) (acc : List Char), n < fuel →
    natReprGo fuel n acc = natRepr n ++ acc := by
  intro n
  induction n using Nat.strong_induction_on with
  | _ n ih =>
    intro fuel acc hf
    obtain ⟨f, rfl⟩ : ∃ f, fuel = f + 1 := ⟨fuel - 1, by omega⟩
    by_cases h10 : n < 10
    · simp [natReprGo, natRepr, h10]
    · have hlt : n / 10 < n := Nat.div_lt_self (by omega) (by omega)
      have h1 : natReprGo (f + 1) n acc = natReprGo f (n / 10) (digitChar (n % 10) :: acc) := by
        simp [natReprGo, h10]
      have h2 : natRepr n = natReprGo n (n / 10) [digitChar (n % 10)] := by
        simp [natRepr, natReprGo, h10]
      rw [h1, ih (n / 10) hlt f _ (by omega), h2, ih (n / 10) hlt n _ (by omega)]
      simp

lemma natRepr_lt10 {n : Nat} (h : n < 10) : natRepr n = [digitChar n] := by
  simp [natRepr, natReprGo, h]

lemma natRepr_ge10 {n : Nat} (h : 10 ≤ n) :
    natRepr n = natRepr (n / 10) ++ [digitChar (n % 10)] := by
  have h2 : natRepr n = natReprGo n (n / 10) [digitChar (n % 10)] := by
    simp [natRepr, natReprGo, show ¬ n < 10 by omega]
  rw [h2, natReprGo_eq (n / 10) n _ (Nat.div_lt_self (by omega) (by omega))]

lemma mem_natRepr_digit : ∀ (n : Nat) {c : Char}, c ∈ natRepr n → isDigitCh c = true := by
  intro n
  induction n using Nat.strong_induction_on with
  | _ n ih =>
    intro c hc
    by_cases h10 : n < 10
    · rw [natRepr_lt10 h10] at hc
      rcases List.mem_singleton.mp hc with rfl
      exact isDigitCh_digitChar n h10
    · rw [natRepr_ge10 (by omega)] at hc
      rcases List.mem_append.mp hc with h | h
      · exact ih (n / 10) (Nat.div_lt_self (by omega) (by omega)) h
      · rcases List.mem_singleton.mp h with rfl
        exact isDigitCh_digitChar _ (Nat.mod_lt _ (by omega))

lemma natRepr_ne_nil (n : Nat) : natRepr n ≠ [] := by
  by_cases h10 : n < 10
  · simp [natRepr_lt10 h10]
  · simp [natRepr_ge10 (show 10 ≤ n by omega)]

lemma natRepr_head_digit (n : Nat) :
    ∃ d t, natRepr n = d :: t ∧ isDigitCh d = true := by
  cases hn : natRepr n with
  | nil => exact absurd hn (natRepr_ne_nil n)
  | cons d t =>
    exact ⟨d, t, rfl, mem_natRepr_digit n (hn ▸ List.mem_cons_self d t)⟩

lemma digitsVal_append_single (ds : List Char) (c : Char) :
    digitsVal (ds ++ [c]) = digitsVal ds * 10 + digitVal c := by
  simp [digitsVal, List.foldl_append]

lemma digitsVal_natRepr : ∀ n : Nat, digitsVal (natRepr n) = n := by
  intro n
  induction n using Nat.strong_induction_on with
  | _ n ih =>
    by_cases h10 : n < 10
    · rw [natRepr_lt10 h10]
      simp [digitsVal, digitVal_digitChar n h10]
    · rw [natRepr_ge10 (by omega), digitsVal_append_single,
          ih (n / 10) (Nat.div_lt_self (by omega) (by omega)),
          digitVal_digitChar _ (Nat.mod_lt _ (by omega))]
      omega

lemma takeWhile_all {p : Char → Bool} :
    ∀ l : List Char, (∀ c ∈ l, p c = true) → l.takeWhile p = l := by
  intro l h
  induction l with
  | nil => rfl
  | cons c t ih =>
    rw [List.takeWhile_cons, h c (List.mem_cons_self c t)]
    simp only [ite_true]
    rw [ih (fun d hd => h d (List.mem_cons_of_mem c hd))]

lemma parseDigits_natRepr (m : Nat) : parseDigits (natRepr m) = some m := by
  have htake : (natRepr m).takeWhile isDigitCh = natRepr m :=
    takeWhile_all _ (fun c hc => mem_natRepr_digit m hc)
  simp only [parseDigits, htake]
  rw [if_neg (by simp [List.isEmpty_iff, natRepr_ne_nil m]), digitsVal_natRepr]

lemma jsParseInt_natRepr (m : Nat) : jsParseInt (natRepr m) = some (m : Int) := by
  obtain ⟨d, t, heq, hd⟩ := natRepr_head_digit m
  have hdw : (natRepr m).dropWhile isJsSpace = d :: t := by
    rw [heq, List.dropWhile_cons, isDigitCh_not_space hd]
    simp
  simp only [jsParseInt, hdw]
  rw [if_neg (isDigitCh_ne_minus hd), if_neg (isDigitCh_ne_plus hd),
      ← heq, parseDigits_natRepr]
  rfl

lemma jsParseInt_intRepr (n : Int) : jsParseInt (intRepr n) = some n := by
  by_cases hneg : n < 0
  · have hm : ((n.natAbs : Nat) : Int) = -n := by omega
    simp only [intRepr, if_pos hneg]
    have hdw : ('-' :: natRepr n.natAbs).dropWhile isJsSpace = '-' :: natRepr n.natAbs := by
      rw [List.dropWhile_cons]
      simp [isJsSpace]
    simp only [jsParseInt, hdw, parseDigits_natRepr]
    simp [abs_of_neg hneg]
  · have hm : ((n.natAbs : Nat) : Int) = n := by omega
    simp only [intRepr, if_neg hneg]
    rw [jsParseInt_natRepr, hm]

lemma natRepr_no_semi (n : Nat) : ';' ∉ natRepr n :=
  fun h => absurd (mem_natRepr_digit n h) (by decide)

lemma natRepr_no_eqmark (n : Nat) : '=' ∉ natRepr n :=
  fun h => absurd (mem_natRepr_digit n h) (by decide)

lemma mem_intRepr {n : Int} {c : Char} (hc : c ∈ intRepr n) :
    c = '-' ∨ isDigitCh c = true := by
  unfold intRepr at hc
  by_cases hneg : n < 0
  · rw [if_pos hneg] at hc
    rcases List.mem_cons.mp hc with rfl | h
    · exact Or.inl rfl
    · exact Or.inr (mem_natRepr_digit _ h)
  · rw [if_neg hneg] at hc
    exact Or.inr (mem_natRepr_digit _ hc)

lemma intRepr_no_semi (n : Int) : ';' ∉ intRepr n := by
  intro h
  rcases mem_intRepr h with h' | h'
  · exact absurd h' (by decide)
  · exact absurd h' (by decide)

lemma intRepr_no_eqmark (n : Int) : '=' ∉ intRepr n := by
  intro h
  rcases mem_intRepr h with h' | h'
  · exact absurd h' (by decide)
  · exact absurd h' (by decide)

/- ## Split and join lemmas -/

lemma splitSemiSpGo_cons (c : Char) (rest acc : List Char) (h : c ≠ ';') :
    splitSemiSpGo (c :: rest) acc = splitSemiSpGo rest (c :: acc) := by
  cases rest with
  | nil => simp [splitSemiSpGo, h]
  | cons d rest2 => simp [splitSemiSpGo, h]

lemma splitSemiSpGo_scan : ∀ (l : List Char), (∀ c ∈ l, c ≠ ';') →
    ∀ (rest acc : List Char),
    splitSemiSpGo (l ++ rest) acc = splitSemiSpGo rest (l.reverse ++ acc) := by
  intro l
  induction l with
  | nil => intro _ rest acc; simp
  | cons c t ih =>
    intro h rest acc
    rw [List.cons_append, splitSemiSpGo_cons c _ _ (h c (List.mem_cons_self c t)),
        ih (fun d hd => h d (List.mem_cons_of_mem c hd))]
    simp

lemma splitEqGo_cons (c : Char) (rest acc : List Char) (h : c ≠ '=') :
    splitEqGo (c :: rest) acc = splitEqGo rest (c :: acc) := by
  simp [splitEqGo, h]

lemma splitEqGo_scan : ∀ (l : List Char), (∀ c ∈ l, c ≠ '=') →
    ∀ (rest acc : List Char),
    splitEqGo (l ++ rest) acc = splitEqGo rest (l.reverse ++ acc) := by
  intro l
  induction l with
  | nil => intro _ rest acc; simp
  | cons c t ih =>
    intro h rest acc
    rw [List.cons_append, splitEqGo_cons c _ _ (h c (List.mem_cons_self c t)),
        ih (fun d hd => h d (List.mem_cons_of_mem c hd))]
    simp

lemma splitEq_pair (k v : JSString) (hk : '=' ∉ k) (hv : '=' ∉ v) :
    splitEq (k ++ '=' :: v) = [k, v] := by
  unfold splitEq
  rw [splitEqGo_scan k (fun c hc he => hk (he ▸ hc)) ('=' :: v) []]
  have h1 : splitEqGo ('=' :: v) (k.reverse ++ []) =
      (k.reverse ++ []).reverse :: splitEqGo v [] := by
    simp [splitEqGo]
  rw [h1]
  have h2 := splitEqGo_scan v (fun c hc he => hv (he ▸ hc)) [] []
  rw [List.append_nil] at h2
  rw [h2]
  simp [splitEqGo]

lemma split_join : ∀ (items : List JSString), items ≠ [] →
    (∀ i ∈ items, ∀ c ∈ i, c ≠ ';') →
    splitSemiSp (joinItems items) = items := by
  intro items
  induction items with
  | nil => intro h; contradiction
  | cons x rest ih =>
    intro _ h
    cases rest with
    | nil =>
      simp only [joinItems]
      unfold splitSemiSp
      have hs := splitSemiSpGo_scan x (h x (List.mem_cons_self x [])) [] []
      rw [List.append_nil] at hs
      rw [hs]
      simp [splitSemiSpGo]
    | cons y rest2 =>
      simp only [joinItems]
      unfold splitSemiSp
      rw [splitSemiSpGo_scan x (h x (List.mem_cons_self x (y :: rest2)))
            (';' :: ' ' :: joinItems (y :: rest2)) []]
      have hsep : splitSemiSpGo (';' :: ' ' :: joinItems (y :: rest2))
          (x.reverse ++ []) =
          (x.reverse ++ []).reverse :: splitSemiSpGo (joinItems (y :: rest2)) [] := rfl
      rw [hsep]
      have hrec := ih (by simp) (fun i hi => h i (List.mem_cons_of_mem x hi))
      unfold splitSemiSp at hrec
      rw [hrec]
      simp

/- ## Finding the visits cookie in a rendered jar -/

lemma visitsMark_decomp : visitsMark = visitsKey ++ ['='] := by decide

lemma startsWithChars_append_cons (a v : List Char) (c : Char) :
    startsWithChars (a ++ [c]) (a ++ c :: v) = true := by
  induction a with
  | nil => simp [startsWithChars]
  | cons b t ih => simp [startsWithChars, ih]

lemma startsWithChars_mark_iff : ∀ (a k : List Char) (v : List Char),
    '=' ∉ a → '=' ∉ k →
    (startsWithChars (a ++ ['=']) (k ++ '=' :: v) = true ↔ k = a) := by
  intro a
  induction a with
  | nil =>
    intro k v _ hk
    cases k with
    | nil => simp [startsWithChars]
    | cons c k2 =>
      have hc : c ≠ '=' := fun he => hk (by simp [he])
      simp [startsWithChars, Ne.symm hc]
  | cons b t ih =>
    intro k v ha hk
    cases k with
    | nil =>
      have hb : b ≠ '=' := fun he => ha (by simp [he])
      simp [startsWithChars, hb]
    | cons c k2 =>
      have ht : '=' ∉ t := fun he => ha (List.mem_cons_of_mem b he)
      have hk2 : '=' ∉ k2 := fun he => hk (List.mem_cons_of_mem c he)
      by_cases hbc : b = c
      · subst hbc
        simp [startsWithChars, ih k2 v ht hk2]
      · simp [startsWithChars, hbc, Ne.symm hbc]

lemma renderPair_eq (p : JSString × JSString) :
    renderPair p = p.1 ++ '=' :: p.2 := rfl

lemma find?_visits (v : JSString) : ∀ (pre : CookieJar) (post : CookieJar),
    (∀ p ∈ pre, p.1 ≠ visitsKey) → (∀ p ∈ pre, '=' ∉ p.1) →
    List.find? (fun cookie => startsWithChars visitsMark cookie)
      ((pre ++ (visitsKey, v) :: post).map renderPair) =
      some (visitsKey ++ '=' :: v) := by
  intro pre
  induction pre with
  | nil =>
    intro post _ _
    simp only [List.nil_append, List.map_cons]
    rw [List.find?_cons_of_pos]
    · rfl
    · rw [renderPair_eq, visitsMark_decomp]
      exact startsWithChars_append_cons visitsKey v '='
  | cons q pre2 ih =>
    intro post h1 h2
    simp only [List.cons_append, List.map_cons]
    rw [List.find?_cons_of_neg]
    · exact ih post (fun p hp => h1 p (List.mem_cons_of_mem q hp))
        (fun p hp => h2 p (List.mem_cons_of_mem q hp))
    · rw [renderPair_eq, visitsMark_decomp]
      simp only [Bool.not_eq_true]
      rw [← Bool.not_eq_true]
      intro hcon
      exact h1 q (List.mem_cons_self q pre2)
        ((startsWithChars_mark_iff visitsKey q.1 q.2 (by decide)
          (h2 q (List.mem_cons_self q pre2))).mp hcon)

lemma renderPair_no_semi {p : JSString × JSString} (hp : goodPair p) :
    ∀ c ∈ renderPair p, c ≠ ';' := by
  intro c hc
  rw [renderPair_eq] at hc
  rcases List.mem_append.mp hc with h | h
  · exact fun he => hp.1 (he ▸ h)
  · rcases List.mem_cons.mp h with rfl | h'
    · decide
    · exact fun he => hp.2.1 (he ▸ h')

lemma getCookie_jar (jar pre post : CookieJar) (v : JSString)
    (hgood : goodJar jar) (hdec : jar = pre ++ (visitsKey, v) :: post)
    (hpre : ∀ p ∈ pre, p.1 ≠ visitsKey) :
    getCookie (renderJar jar) = some (visitsKey ++ '=' :: v) := by
  subst hdec
  unfold getCookie renderJar
  rw [split_join (List.map renderPair (pre ++ (visitsKey, v) :: post)) (by simp)]
  · exact find?_visits v pre post hpre
      (fun p hp => (hgood p (List.mem_append_left _ hp)).2.2)
  · intro i hi
    rcases List.mem_map.mp hi with ⟨p, hp, rfl⟩
    exact renderPair_no_semi (hgood p hp)

lemma extractNumber_value (v : JSString) (hv : '=' ∉ v) :
    extractNumberFromCookie (visitsKey ++ '=' :: v) =
      (match jsParseInt v with
       | none => 0
       | some x => if x = 0 then 0 else x) := by
  unfold extractNumberFromCookie cookieParseInt
  rw [splitEq_pair visitsKey v (by decide) hv]
  rfl

lemma readCounter_jar (jar pre post : CookieJar) (v : JSString)
    (hgood : goodJar jar) (hdec : jar = pre ++ (visitsKey, v) :: post)
    (hpre : ∀ p ∈ pre, p.1 ≠ visitsKey) (hv : '=' ∉ v) :
    readCounter (renderJar jar) =
      (match jsParseInt v with
       | none => 0
       | some x => if x = 0 then 0 else x) := by
  unfold readCounter
  rw [getCookie_jar jar pre post v hgood hdec hpre]
  unfold getSavedVisitCount
  exact extractNumber_value v hv

/- ## Cookie jar update lemmas -/

lemma setCookieField_decomp : ∀ (jar : CookieJar) (k v : JSString),
    ∃ pre post, setCookieField jar k v = pre ++ (k, v) :: post ∧
      (∀ p ∈ pre, p.1 ≠ k) ∧ (∀ p ∈ pre, p ∈ jar) ∧ (∀ p ∈ post, p ∈ jar) := by
  intro jar k v
  induction jar with
  | nil => exact ⟨[], [], rfl, by simp, by simp, by simp⟩
  | cons q rest ih =>
    by_cases hq : q.1 = k
    · refine ⟨[], rest, ?_, by simp, by simp,
        fun p hp => List.mem_cons_of_mem q hp⟩
      simp [setCookieField, hq]
    · obtain ⟨pre, post, heq, h1, h2, h3⟩ := ih
      refine ⟨q :: pre, post, ?_, ?_, ?_,
        fun p hp => List.mem_cons_of_mem q (h3 p hp)⟩
      · simp [setCookieField, hq, heq]
      · intro p hp
        rcases List.mem_cons.mp hp with rfl | hp2
        · exact hq
        · exact h1 p hp2
      · intro p hp
        rcases List.mem_cons.mp hp with rfl | hp2
        · exact List.mem_cons_self p rest
        · exact List.mem_cons_of_mem q (h2 p hp2)

lemma lookupField_set : ∀ (jar : CookieJar) (k v : JSString),
    lookupField (setCookieField jar k v) k = some v := by
  intro jar k v
  induction jar with
  | nil => simp [setCookieField, lookupField]
  | cons q rest ih =>
    by_cases hq : q.1 = k
    · simp [setCookieField, hq, lookupField]
    · simp [setCookieField, hq, lookupField, ih]

lemma goodJar_set {jar : CookieJar} (hgood : goodJar jar) (n : Int) :
    goodJar (setCookieField jar visitsKey (intRepr n)) := by
  obtain ⟨pre, post, heq, _, hpre, hpost⟩ :=
    setCookieField_decomp jar visitsKey (intRepr n)
  rw [heq]
  intro p hp
  rcases List.mem_append.mp hp with h | h
  · exact hgood p (hpre p h)
  · rcases List.mem_cons.mp h with rfl | h2
    · exact ⟨(by decide : ';' ∉ visitsKey), intRepr_no_semi n,
        (by decide : '=' ∉ visitsKey)⟩
    · exact hgood p (hpost p h2)

/- ## Fetch pipeline lemmas -/

lemma fetchImage_net_err (e : JsError) :
    fetchImage (Except.error e) = Except.error e := rfl

lemma fetchImage_not_ok {r : Response} (h : respOk r = false) :
    fetchImage (Except.ok r) = Except.error ⟨r.statusText⟩ := by
  have h1 : fetchImage (Except.ok r) = (validateStatus r).bind extractBlob := rfl
  have hv : validateStatus r = Except.error ⟨r.statusText⟩ := by
    simp [validateStatus, h]
  rw [h1, hv]
  rfl

lemma fetchImage_ok_blob {r : Response} (h : respOk r = true) :
    fetchImage (Except.ok r) = r.blobResult := by
  have h1 : fetchImage (Except.ok r) = (validateStatus r).bind extractBlob := rfl
  have hv : validateStatus r = Except.ok r := by
    simp [validateStatus, h]
  rw [h1, hv]
  rfl

lemma jsParseInt_nonneg {part : JSString}
    (h : ∀ c t, part.dropWhile isJsSpace = c :: t → c ≠ '-') :
    ∀ x : Int, jsParseInt part = some x → 0 ≤ x := by
  intro x hx
  unfold jsParseInt at hx
  cases hd : part.dropWhile isJsSpace with
  | nil =>
    rw [hd] at hx
    exact absurd hx (by simp)
  | cons c t =>
    rw [hd] at hx
    replace hx :
        (if c = '-' then (parseDigits t).map (fun m => -(Int.ofNat m))
         else if c = '+' then (parseDigits t).map (fun m => Int.ofNat m)
         else (parseDigits (c :: t)).map (fun m => Int.ofNat m)) = some x := hx
    rw [if_neg (h c t hd)] at hx
    by_cases hplus : c = '+'
    · rw [if_pos hplus] at hx
      obtain ⟨m, _, heq⟩ := Option.map_eq_some'.mp hx
      rw [← heq]
      exact Int.natCast_nonneg m
    · rw [if_neg hplus] at hx
      obtain ⟨m, _, heq⟩ := Option.map_eq_some'.mp hx
      rw [← heq]
      exact Int.natCast_nonneg m

/- ## Demonstration values used by the witness theorems -/

/-- Empty page: no cookies, nothing displayed yet. -/
def demoState : PageState := ⟨[], none, none, [], 0, []⟩

/-- Response whose body read would also fail — it must never be reached. -/
def resp404 : Response :=
  ⟨404, "Not Found".toList, Except.error ⟨"no body".toList⟩⟩

/-- Successful response carrying a small blob. -/
def resp200 : Response := ⟨200, "OK".toList, Except.ok ⟨[1, 2, 3]⟩⟩

/- ## Predicates used to state the claims -/

/-- Condition of claim C2: the visits cookie is absent from the document
cookie string, or present with a value whose parse is `NaN`. -/
def visitsAbsentOrUnparsable (doc : JSString) : Bool :=
  match getCookie doc with
  | none => true
  | some cookie => (cookieParseInt cookie).isNone

/-- Test whether the found visits cookie stores a value that begins (after
optional white space) with a minus sign — the only way `parseInt` can
produce a negative number. -/
def visitsValueStartsMinus (cookie : JSString) : Bool :=
  match (splitEq cookie)[1]? with
  | none => false
  | some part =>
    match part.dropWhile isJsSpace with
    | [] => false
    | c :: _ => c = '-'

/-- Condition of the amended claim C9: the visits cookie, when present,
does not store a minus-signed value. -/
def noNegVisits (doc : JSString) : Bool :=
  match getCookie doc with
  | none => true
  | some cookie => !(visitsValueStartsMinus cookie)

/- ## The claims -/

/-- C1: on page load, the displayed counter text is the decimal form of the
saved visit count plus one, and the same incremented value is written back
to the cookie: with no prior cookie the display shows "1" and the visits
cookie becomes 1; with cookie visits=5 the display shows "6" and the cookie
becomes 6. -/
theorem c1_load_increments_displays_and_saves :
    ((mainOnLoad ⟨[], none, none, [], 0, []⟩).counterText = some "1".toList ∧
     lookupField (mainOnLoad ⟨[], none, none, [], 0, []⟩).jar visitsKey =
       some "1".toList) ∧
    ((mainOnLoad ⟨[(visitsKey, "5".toList)], none, none, [], 0, []⟩).counterText =
       some "6".toList ∧
     lookupField
       (mainOnLoad ⟨[(visitsKey, "5".toList)], none, none, [], 0, []⟩).jar
       visitsKey = some "6".toList) := by
  decide

/-- C2: whenever the visits field is absent from the document cookie
string, or present but its numeric parse fails, the composition of
`getCookie` and `getSavedVisitCount` returns 0 (a non-numeric prefix
yields 0 rather than an error). -/
theorem c2_missing_or_malformed_reads_zero (doc : JSString)
    (h : visitsAbsentOrUnparsable doc = true) : readCounter doc = 0 := by
  unfold visitsAbsentOrUnparsable at h
  unfold readCounter getSavedVisitCount
  cases hg : getCookie doc with
  | none => rfl
  | some cookie =>
    rw [hg] at h
    replace h : (cookieParseInt cookie).isNone = true := h
    show extractNumberFromCookie cookie = 0
    unfold extractNumberFromCookie
    cases hp : cookieParseInt cookie with
    | none => rfl
    | some v =>
      rw [hp] at h
      simp [Option.isNone] at h

theorem c2_witness :
    visitsAbsentOrUnparsable "visits=abc".toList = true ∧
    readCounter "visits=abc".toList = 0 :=
  ⟨by decide, c2_missing_or_malformed_reads_zero _ (by decide)⟩

/-- C3: for every valid integer cookie visits=N with N ≥ 0 (the visits
entry of a well-formed jar stores the decimal rendering of N, and no
earlier entry is named visits), reading the counter returns exactly N. -/
theorem c3_valid_cookie_reads_exactly (N : Nat) (jar pre post : CookieJar)
    (hgood : goodJar jar) (hdec : jar = pre ++ (visitsKey, natRepr N) :: post)
    (hpre : ∀ p ∈ pre, p.1 ≠ visitsKey) :
    readCounter (renderJar jar) = N := by
  rw [readCounter_jar jar pre post (natRepr N) hgood hdec hpre
        (natRepr_no_eqmark N),
      jsParseInt_natRepr]
  by_cases h0 : (N : Int) = 0
  · simp [h0]
  · simp [h0]

theorem c3_witness :
    readCounter (renderJar [("a".toList, "1".toList), (visitsKey, natRepr 5)]) = 5 :=
  c3_valid_cookie_reads_exactly 5 _ [("a".toList, "1".toList)] []
    (by decide) rfl (by decide)

/-- C4: round-trip — for every integer n, writing the counter with
`saveVisitCount` (which sets the visits cookie field) and then reading the
counter from the resulting document cookie string yields n, for any
well-formed starting jar. -/
theorem c4_write_then_read_roundtrip (n : Int) (st : PageState)
    (hgood : goodJar st.jar) :
    readCounter (renderJar (saveVisitCount n st).2.jar) = n := by
  have hjar : (saveVisitCount n st).2.jar =
      setCookieField st.jar visitsKey (intRepr n) := rfl
  rw [hjar]
  obtain ⟨pre, post, heq, h1, _, _⟩ :=
    setCookieField_decomp st.jar visitsKey (intRepr n)
  rw [readCounter_jar _ pre post (intRepr n) (goodJar_set hgood n) heq h1
        (intRepr_no_eqmark n),
      jsParseInt_intRepr]
  by_cases h0 : n = 0
  · simp [h0]
  · simp [h0]

theorem c4_witness :
    readCounter (renderJar (saveVisitCount (-7) demoState).2.jar) = -7 :=
  c4_write_then_read_roundtrip (-7) demoState (by decide)

/-- C5: in `fetchImage`, status validation strictly precedes payload
extraction — for every non-OK response the result is the failure channel
carrying the status text, and it does not depend on the body-extraction
outcome at all (so `extractBlob` is never attempted). -/
theorem c5_validation_precedes_extraction (r : Response)
    (h : respOk r = false) :
    fetchImage (Except.ok r) = Except.error ⟨r.statusText⟩ ∧
    ∀ b : Except JsError Blob,
      fetchImage (Except.ok { r with blobResult := b }) =
        Except.error ⟨r.statusText⟩ := by
  constructor
  · exact fetchImage_not_ok h
  · intro b
    have hb : respOk { r with blobResult := b } = false := h
    exact fetchImage_not_ok hb

theorem c5_witness :
    fetchImage (Except.ok resp404) = Except.error ⟨"Not Found".toList⟩ ∧
    fetchImage (Except.ok { resp404 with blobResult := Except.ok ⟨[9]⟩ }) =
      Except.error ⟨"Not Found".toList⟩ :=
  ⟨(c5_validation_precedes_extraction resp404 (by decide)).1,
   (c5_validation_precedes_extraction resp404 (by decide)).2 (Except.ok ⟨[9]⟩)⟩

/-- C6: a click-triggered fetch returning HTTP 404 with status text
"Not Found" makes the handler append a user-visible alert containing
"Not Found", and the image element's source (and the object-URL state)
is left unchanged — `swapImage` is not invoked. -/
theorem c6_404_alerts_and_keeps_image (st : PageState) (r : Response)
    (hs : r.status = 404) (ht : r.statusText = "Not Found".toList) :
    (onFetchButtonClick (Except.ok r) st).imageSrc = st.imageSrc ∧
    (onFetchButtonClick (Except.ok r) st).urlCounter = st.urlCounter ∧
    (onFetchButtonClick (Except.ok r) st).objectUrls = st.objectUrls ∧
    ∃ m, (onFetchButtonClick (Except.ok r) st).alerts = st.alerts ++ [m] ∧
      containsSub "Not Found".toList m = true := by
  have hok : respOk r = false := by simp [respOk, hs]
  have hfi : fetchImage (Except.ok r) = Except.error ⟨"Not Found".toList⟩ := by
    rw [fetchImage_not_ok hok, ht]
  unfold onFetchButtonClick
  rw [hfi]
  exact ⟨rfl, rfl, rfl, ⟨alertText ⟨"Not Found".toList⟩, rfl, by decide⟩⟩

theorem c6_witness :
    (onFetchButtonClick (Except.ok resp404) demoState).imageSrc =
      demoState.imageSrc ∧
    (onFetchButtonClick (Except.ok resp404) demoState).urlCounter =
      demoState.urlCounter ∧
    (onFetchButtonClick (Except.ok resp404) demoState).objectUrls =
      demoState.objectUrls ∧
    ∃ m, (onFetchButtonClick (Except.ok resp404) demoState).alerts =
      demoState.alerts ++ [m] ∧ containsSub "Not Found".toList m = true :=
  c6_404_alerts_and_keeps_image demoState resp404 rfl rfl

/-- C7: a click-triggered fetch returning HTTP 200 with a binary body sets
the image element's source to the newly generated object URL recorded for
that body, and shows no alert. -/
theorem c7_200_swaps_image_no_alert (st : PageState) (r : Response) (b : Blob)
    (hs : r.status = 200) (hb : r.blobResult = Except.ok b) :
    (onFetchButtonClick (Except.ok r) st).alerts = st.alerts ∧
    (onFetchButtonClick (Except.ok r) st).imageSrc =
      some (objectUrlString st.urlCounter) ∧
    (onFetchButtonClick (Except.ok r) st).objectUrls =
      (objectUrlString st.urlCounter, b) :: st.objectUrls ∧
    (onFetchButtonClick (Except.ok r) st).urlCounter = st.urlCounter + 1 := by
  have hok : respOk r = true := by simp [respOk, hs]
  have hfi : fetchImage (Except.ok r) = Except.ok b := by
    rw [fetchImage_ok_blob hok, hb]
  unfold onFetchButtonClick
  rw [hfi]
  exact ⟨rfl, rfl, rfl, rfl⟩

theorem c7_witness :
    (onFetchButtonClick (Except.ok resp200) demoState).alerts =
      demoState.alerts ∧
    (onFetchButtonClick (Except.ok resp200) demoState).imageSrc =
      some (objectUrlString demoState.urlCounter) ∧
    (onFetchButtonClick (Except.ok resp200) demoState).objectUrls =
      (objectUrlString demoState.urlCounter, ⟨[1, 2, 3]⟩) ::
        demoState.objectUrls ∧
    (onFetchButtonClick (Except.ok resp200) demoState).urlCounter =
      demoState.urlCounter + 1 :=
  c7_200_swaps_image_no_alert demoState resp200 ⟨[1, 2, 3]⟩ rfl rfl

/-- C8: every fetch-related failure — network-level failure, non-2xx
status, or body-extraction failure — is caught inside `fetchImage` and
delivered as an error of the single `JsError` failure channel (the
function is total, so the modelled promise always resolves), and the click
handler's whole reaction to any such error is the one alert. -/
theorem c8_failures_normalized :
    (∀ e : JsError, fetchImage (Except.error e) = Except.error e) ∧
    (∀ r : Response, respOk r = false →
      fetchImage (Except.ok r) = Except.error ⟨r.statusText⟩) ∧
    (∀ (r : Response) (e : JsError), respOk r = true →
      r.blobResult = Except.error e →
      fetchImage (Except.ok r) = Except.error e) ∧
    (∀ (outcome : Except JsError Response) (e : JsError) (st : PageState),
      fetchImage outcome = Except.error e →
      onFetchButtonClick outcome st =
        { st with alerts := st.alerts ++ [alertText e] }) := by
  refine ⟨fun e => rfl, fun r h => fetchImage_not_ok h, ?_, ?_⟩
  · intro r e hok hb
    rw [fetchImage_ok_blob hok, hb]
  · intro o e st hf
    unfold onFetchButtonClick
    rw [hf]

theorem c8_witness :
    fetchImage (Except.error ⟨"net down".toList⟩) =
      Except.error ⟨"net down".toList⟩ ∧
    fetchImage (Except.ok ⟨500, "Server Error".toList, Except.ok ⟨[0]⟩⟩) =
      Except.error ⟨"Server Error".toList⟩ ∧
    fetchImage (Except.ok ⟨200, "OK".toList, Except.error ⟨"body gone".toList⟩⟩) =
      Except.error ⟨"body gone".toList⟩ ∧
    onFetchButtonClick (Except.error ⟨"net down".toList⟩) demoState =
      { demoState with alerts := [alertText ⟨"net down".toList⟩] } :=
  ⟨c8_failures_normalized.1 ⟨"net down".toList⟩,
   c8_failures_normalized.2.1 ⟨500, "Server Error".toList, Except.ok ⟨[0]⟩⟩ rfl,
   c8_failures_normalized.2.2.1 ⟨200, "OK".toList, Except.error ⟨"body gone".toList⟩⟩
     ⟨"body gone".toList⟩ rfl rfl,
   c8_failures_normalized.2.2.2 (Except.error ⟨"net down".toList⟩)
     ⟨"net down".toList⟩ demoState rfl⟩

/-- C9 counterexample: the claim that reading the counter is non-negative
for every document cookie string fails — a stored minus-signed value is
parsed and returned as a negative number. -/
theorem c9_counterexample :
    readCounter "visits=-5".toList = -5 ∧
    ¬ (0 ≤ readCounter "visits=-5".toList) := by
  decide

/-- C9 (amended): for every document cookie string whose visits field, if
present, does not store a minus-signed value, reading the counter returns
an integer greater than or equal to 0. -/
theorem c9_nonneg_unless_minus (doc : JSString)
    (h : noNegVisits doc = true) : 0 ≤ readCounter doc := by
  unfold noNegVisits at h
  unfold readCounter getSavedVisitCount
  cases hg : getCookie doc with
  | none => exact le_refl 0
  | some cookie =>
    rw [hg] at h
    replace h : (!(visitsValueStartsMinus cookie)) = true := h
    have hm : visitsValueStartsMinus cookie = false := by simpa using h
    show 0 ≤ extractNumberFromCookie cookie
    unfold extractNumberFromCookie
    cases hp : cookieParseInt cookie with
    | none => exact le_refl 0
    | some v =>
      have hv : 0 ≤ v := by
        unfold cookieParseInt at hp
        unfold visitsValueStartsMinus at hm
        cases hq : (splitEq cookie)[1]? with
        | none => rw [hq] at hp; cases hp
        | some part =>
          rw [hq] at hp
          rw [hq] at hm
          replace hm :
              (match part.dropWhile isJsSpace with
               | [] => false
               | c :: _ => decide (c = '-')) = false := hm
          refine jsParseInt_nonneg ?_ v hp
          intro c t hd
          rw [hd] at hm
          replace hm : decide (c = '-') = false := hm
          intro hc
          rw [hc] at hm
          simp at hm
      by_cases h0 : v = 0
      · simp [h0]
      · simp [h0, hv]

theorem c9_witness :
    noNegVisits "visits=5".toList = true ∧ 0 ≤ readCounter "visits=5".toList :=
  ⟨by decide, c9_nonneg_unless_minus _ (by decide)⟩

/-- C10: after `setCounterAndSave n` the display and the cookie agree —
the counter element shows the decimal string of n, the visits cookie field
stores that same decimal string, and the threaded value is n itself. -/
theorem c10_display_and_cookie_agree (n : Int) (st : PageState) :
    (setCounterAndSave n st).2.counterText = some (intRepr n) ∧
    lookupField (setCounterAndSave n st).2.jar visitsKey = some (intRepr n) ∧
    (setCounterAndSave n st).1 = n := by
  refine ⟨rfl, ?_, rfl⟩
  show lookupField (setCookieField st.jar visitsKey (intRepr n)) visitsKey =
    some (intRepr n)
  exact lookupField_set st.jar visitsKey (intRepr n)

end DogSite
